import Mathlib

/-!
Shallow embedding of the crash/error-report lifecycle manager of
subiquity/controllers/error.py: the ErrorReport entity, its state machine,
metadata persistence, and the ErrorController (report manager) scanning and
load-chaining logic.  Pure data (dicts, JSON metadata, the apport report
object) is modelled with association lists; the filesystem holding the
metadata files is an explicit association from path to file contents;
background tasks (run_in_bg) are modelled by running the background body and
then the completion callback in sequence, which matches the runner contract
of one task whose outcome is delivered exactly once; log calls, file closes
and urwid signal emissions are recorded in an explicit event trace.
-/

set_option autoImplicit false

namespace Subiquity

/-! ## Association lists (Python dict, insertion-ordered) -/

/-- Lookup in an insertion-ordered association list (Python dict access). -/
def alistGet {α : Type} (k : String) : List (String × α) → Option α
  | [] => none
  | (k', v) :: rest => if k' = k then some v else alistGet k rest

/-- Python dict item assignment: update the value in place if the key is
present, otherwise append the new binding at the end. -/
def alistSet {α : Type} (k : String) (v : α) : List (String × α) → List (String × α)
  | [] => [(k, v)]
  | (k', v') :: rest =>
      if k' = k then (k, v) :: rest else (k', v') :: alistSet k v rest

/-- Remove a key from an association list (Python del, on a present key). -/
def alistDel {α : Type} (k : String) : List (String × α) → List (String × α)
  | [] => []
  | (k', v') :: rest =>
      if k' = k then alistDel k rest else (k', v') :: alistDel k rest

theorem alistGet_alistSet_self {α : Type} (m : List (String × α)) (k : String) (v : α) :
    alistGet k (alistSet k v m) = some v := by
  induction m with
  | nil => simp [alistGet, alistSet]
  | cons p rest ih =>
      obtain ⟨k', v'⟩ := p
      by_cases h : k' = k
      · simp [alistGet, alistSet, h]
      · simp [alistGet, alistSet, h, ih]

theorem alistGet_alistSet_ne {α : Type} (m : List (String × α)) (k k' : String) (v : α)
    (h : k ≠ k') : alistGet k (alistSet k' v m) = alistGet k m := by
  have h' : ¬ k' = k := fun hh => h hh.symm
  induction m with
  | nil => simp [alistGet, alistSet, h']
  | cons p rest ih =>
      obtain ⟨k₀, v₀⟩ := p
      by_cases h₀ : k₀ = k'
      · subst h₀
        simp [alistGet, alistSet, h']
      · simp [alistGet, alistSet, h₀, ih]

/-! ## Filename handling: os.path.splitext on a basename -/

/-- Split a character list at its last dot: returns the part before the last
dot and the part from the last dot on, or none if there is no dot. -/
def splitAtLastDot : List Char → Option (List Char × List Char)
  | [] => none
  | c :: rest =>
      match splitAtLastDot rest with
      | some (s, e) => some (c :: s, e)
      | none => if c = '.' then some ([], c :: rest) else none

/-- os.path.splitext restricted to basenames (no directory separator):
split at the last dot, except that a name whose characters before the last
dot are all dots (e.g. a leading-dot file) has no extension. -/
def splitext (s : String) : String × String :=
  match splitAtLastDot s.data with
  | none => (s, "")
  | some (stem, ext) =>
      if stem.all (fun c => c == '.') then (s, "") else (⟨stem⟩, ⟨ext⟩)

/-- os.path.join of a directory and a relative name. -/
def joinPath (dir name : String) : String := dir ++ "/" ++ name

/-- ErrorReport._path_with_ext: crash_directory/<base>.<ext>. -/
def pathWithExt (dir base ext : String) : String :=
  joinPath dir (base ++ "." ++ ext)

/-! ## Data model -/

/-- ErrorReportState from error.py. -/
inductive ErrorReportState
  | INCOMPLETE
  | LOADING
  | DONE
  | ERROR_GENERATING
  | ERROR_LOADING
  deriving DecidableEq

/-- ErrorReportKind from error.py (the enum values are display strings and
play no role in the logic; only the member names do). -/
inductive ErrorReportKind
  | BLOCK_PROBE_FAIL
  | DISK_PROBE_FAIL
  | INSTALL_FAIL
  | UI
  | UNKNOWN
  deriving DecidableEq

/-- The .name of an ErrorReportKind member. -/
def ErrorReportKind.name : ErrorReportKind → String
  | .BLOCK_PROBE_FAIL => "BLOCK_PROBE_FAIL"
  | .DISK_PROBE_FAIL => "DISK_PROBE_FAIL"
  | .INSTALL_FAIL => "INSTALL_FAIL"
  | .UI => "UI"
  | .UNKNOWN => "UNKNOWN"

/-- getattr(ErrorReportKind, k, ErrorReportKind.UNKNOWN) for a string k:
an explicit mapping from member name to member, defaulting to UNKNOWN.
(Non-member class attributes of the Python enum are out of model.) -/
def kindOfName (k : String) : ErrorReportKind :=
  if k = "BLOCK_PROBE_FAIL" then .BLOCK_PROBE_FAIL
  else if k = "DISK_PROBE_FAIL" then .DISK_PROBE_FAIL
  else if k = "INSTALL_FAIL" then .INSTALL_FAIL
  else if k = "UI" then .UI
  else .UNKNOWN

/-- JSON-compatible metadata values stored in the .meta file (the code only
ever stores the kind name, a string, and seen, a boolean). -/
inductive JVal
  | str (s : String)
  | bool (b : Bool)
  deriving DecidableEq

/-- The meta dict of a report: string keys to JSON-compatible values. -/
abbrev Meta := List (String × JVal)

/-- Contents of a metadata file on disk: either structured data that
json.load parses back, or corrupt contents on which json.load raises. -/
inductive MetaFileContents
  | valid (m : Meta)
  | corrupt
  deriving DecidableEq

/-- The metadata files of the crash directory: path to file contents; a
missing binding is a missing file (open raises FileNotFoundError). -/
abbrev MetaFS := List (String × MetaFileContents)

def fsLookup (fs : MetaFS) (p : String) : Option MetaFileContents := alistGet p fs

def fsWrite (fs : MetaFS) (p : String) (c : MetaFileContents) : MetaFS := alistSet p c fs

/-- The apport problem report object: an ordered mapping of field names to
field values (the real value types are opaque to this core). -/
abbrev Artifact := List (String × String)

/-- apport.Report(ptype): a fresh report with its problem type field. -/
def mkApportReport (ptype : String) : Artifact := [("ProblemType", ptype)]

/-- pr[key] = value. -/
def prSet (pr : Artifact) (k v : String) : Artifact := alistSet k v pr

/-- del pr[key]: raises KeyError when the key is absent. -/
def prDel (pr : Artifact) (k : String) : Except String Artifact :=
  if (alistGet k pr).isSome then .ok (alistDel k pr) else .error "KeyError"

/-- Observable events of the core: log calls, the close of the report file
handle, the urwid changed signal, and the log lines bracketing a load
(loadStart is the debug line at the start of the background load body,
loadDone the debug line at the start of its completion callback). -/
inductive Event
  | logDebug (msg : String)
  | logException (msg : String)
  | closeFile
  | changed
  | loadStart (base : String)
  | loadDone (base : String)
  deriving DecidableEq

/-- ErrorReport.  The Python object holds a reference to its controller; the
only controller data the report methods read through it is crash_directory,
so the embedding stores that directly.  The open file handle is modelled as
Option Unit: some while a handle is held, none after close-and-null. -/
structure ErrorReport where
  crashDirectory : String
  base : String
  pr : Artifact
  state : ErrorReportState
  file : Option Unit
  meta : Meta
  deriving DecidableEq

def ErrorReport.metaPath (r : ErrorReport) : String :=
  pathWithExt r.crashDirectory r.base "meta"

def ErrorReport.path (r : ErrorReport) : String :=
  pathWithExt r.crashDirectory r.base "crash"

/-- The kind property: meta.get("kind", "UNKNOWN") then getattr with an
UNKNOWN default.  getattr requires a string attribute name; a non-string
stored under "kind" would raise TypeError, modelled as the error case. -/
def ErrorReport.kind (r : ErrorReport) : Except String ErrorReportKind :=
  match (alistGet "kind" r.meta).getD (.str "UNKNOWN") with
  | .str k => .ok (kindOfName k)
  | .bool _ => .error "TypeError"

/-- The seen property: meta.get("seen", False). -/
def ErrorReport.seen (r : ErrorReport) : Bool :=
  match (alistGet "seen" r.meta).getD (.bool false) with
  | .bool b => b
  | .str _ => true

/-- set_meta: mutate the in-memory dict, then rewrite the whole metadata
file (json.dump of the dict; the round trip through JSON text is the
identity on these values, so the file is modelled as holding the dict). -/
def setMeta (r : ErrorReport) (fs : MetaFS) (k : String) (v : JVal) :
    ErrorReport × MetaFS :=
  let m := alistSet k v r.meta
  ({ r with meta := m }, fsWrite fs r.metaPath (.valid m))

/-- mark_seen: set_meta("seen", True) then emit changed. -/
def markSeen (r : ErrorReport) (fs : MetaFS) : ErrorReport × MetaFS × List Event :=
  let p := setMeta r fs "seen" (.bool true)
  (p.1, p.2, [Event.changed])

/-! ## Report construction -/

/-- ErrorReport.new: base is the formatted current time (supplied here as
the string now, standing for the 9-decimal-digit time.time() format) dot
the lowercased kind name; a fresh crash file is opened for writing; the
apport report is created with type Bug and its CrashDB field set to the
repr of the controller's crashdb spec (passed as an opaque string); state
starts INCOMPLETE and set_meta persists the kind name. -/
def ErrorReport.new (dir crashdbSpec : String) (fs : MetaFS) (now : String)
    (kind : ErrorReportKind) : ErrorReport × MetaFS :=
  let base := now ++ "." ++ (kind.name.map Char.toLower)
  let pr := prSet (mkApportReport "Bug") "CrashDB" crashdbSpec
  let r : ErrorReport :=
    { crashDirectory := dir, base := base, pr := pr,
      state := .INCOMPLETE, file := some (), meta := [] }
  setMeta r fs "kind" (.str kind.name)

/-- ErrorReport.from_file: base is the filename stem (os.path.basename of
the artifact path is the directory entry name itself, so the embedding
takes the entry name fname directly); the apport report is constructed
with a placeholder date; state starts LOADING and the artifact file is
opened for reading.  The adjacent metadata file is then read: absence
(FileNotFoundError) is swallowed leaving meta empty, valid contents become
meta, and corrupt contents make json.load raise, which from_file does not
catch — modelled as the error case. -/
def ErrorReport.fromFile (dir : String) (fs : MetaFS) (fname : String) :
    Except String ErrorReport :=
  let r : ErrorReport :=
    { crashDirectory := dir, base := (splitext fname).1,
      pr := prSet (mkApportReport "Crash") "Date" "???",
      state := .LOADING, file := some (), meta := [] }
  match fsLookup fs (pathWithExt dir (splitext fname).1 "meta") with
  | none => .ok r
  | some (.valid m) => .ok { r with meta := m }
  | some .corrupt => .error "JSONDecodeError"

/-! ## add_info -/

/-- The external collaborators _bg_add_info calls: the caller-supplied
attach hook, the four apport populate calls (each may fail and, on
success, extends the report fields), the SNAP_REVISION environment
variable, and the outcome of pr.write on the open file. -/
structure ApportEnv where
  attachHook : Except String Unit
  addProcInfo : Artifact → Except String Artifact
  addOsInfo : Artifact → Except String Artifact
  addHooksInfo : Artifact → Except String Artifact
  attachHardware : Artifact → Except String Artifact
  snapRevision : Option String
  writeResult : Except String Unit

/-- One step of the populate sequence: runs f on the report fields unless
an earlier step already failed; a failing step leaves the fields as they
were at the point of failure (the exception aborts the sequence there). -/
def step (f : Artifact → Except String Artifact) :
    Artifact × Except String Unit → Artifact × Except String Unit
  | (pr, .ok _) =>
      match f pr with
      | .ok pr' => (pr', .ok ())
      | .error e => (pr, .error e)
  | s => s

/-- _bg_add_info: hook, then the four populate calls, then the fixups
(Package and SourcePackage force-set; ExecutableTimestamp and ProcMaps
deleted, where del raises KeyError on an absent key), then pr.write to the
open crash file.  Returns the report fields as mutated so far and the
outcome the background runner will hand to the completion callback. -/
def bgAddInfo (env : ApportEnv) (pr0 : Artifact) : Artifact × Except String Unit :=
  let s : Artifact × Except String Unit := (pr0, env.attachHook)
  let s := step env.addProcInfo s
  let s := step env.addOsInfo s
  let s := step env.addHooksInfo s
  let s := step env.attachHardware s
  let s := step (fun pr => .ok (prSet pr "Package"
      ("subiquity " ++ env.snapRevision.getD "SNAP_REVISION"))) s
  let s := step (fun pr => .ok (prSet pr "SourcePackage" "subiquity")) s
  let s := step (fun pr => prDel pr "ExecutableTimestamp") s
  let s := step (fun pr => prDel pr "ProcMaps") s
  step (fun pr => env.writeResult.map (fun _ => pr)) s

/-- added_info, the completion callback of the non-waiting mode: logs the
done line, turns a failed future into ERROR_GENERATING plus a logged
exception and a successful one into DONE, then in both cases closes and
nulls the file handle and emits changed. -/
def addedInfo (r : ErrorReport) (fut : Except String Unit) :
    ErrorReport × List Event :=
  let ev0 := [Event.logDebug ("done adding info for report " ++ r.base)]
  match fut with
  | .error _ =>
      ({ r with state := .ERROR_GENERATING, file := none },
       ev0 ++ [Event.logException "adding info to problem report failed",
               Event.closeFile, Event.changed])
  | .ok _ =>
      ({ r with state := .DONE, file := none },
       ev0 ++ [Event.closeFile, Event.changed])

/-- Result of one add_info call: the report afterwards, the emitted event
trace, and the exception re-raised to the caller, if any. -/
structure AddInfoResult where
  report : ErrorReport
  events : List Event
  raised : Option String
  deriving DecidableEq

/-- add_info: logs the begin line; with wait=True it runs _bg_add_info on
the calling thread and returns — the completion callback added_info never
runs, and a failure propagates to the caller; with wait=False the runner
executes _bg_add_info and then delivers its outcome to added_info exactly
once. -/
def addInfo (env : ApportEnv) (r : ErrorReport) (wait : Bool) : AddInfoResult :=
  let ev0 := [Event.logDebug ("begin adding info for report " ++ r.base)]
  let pr' := (bgAddInfo env r.pr).1
  let res := (bgAddInfo env r.pr).2
  if wait then
    match res with
    | .ok _ => ⟨{ r with pr := pr' }, ev0, none⟩
    | .error e => ⟨{ r with pr := pr' }, ev0, some e⟩
  else
    let p := addedInfo { r with pr := pr' } res
    ⟨p.1, ev0 ++ p.2, none⟩

/-! ## load and the scan -/

/-- The external parse operation pr.load reading a report's open artifact
file, keyed by the report base naming that file. -/
structure LoadEnv where
  parse : String → Except String Artifact

/-- ErrorReport.load without its completion callback argument: the
background body logs the loading line and parses the artifact; the
completion callback logs the done line, turns failure into ERROR_LOADING
plus a logged exception and success into DONE with the parsed fields, then
closes and nulls the file handle and emits changed.  The cb() invocation
that chains the next load is performed by the caller (reportLoaded). -/
def ErrorReport.load (env : LoadEnv) (r : ErrorReport) : ErrorReport × List Event :=
  match env.parse r.base with
  | .ok pr' =>
      ({ r with pr := pr', state := .DONE, file := none },
       [Event.loadStart r.base, Event.loadDone r.base,
        Event.closeFile, Event.changed])
  | .error _ =>
      ({ r with state := .ERROR_LOADING, file := none },
       [Event.loadStart r.base, Event.loadDone r.base,
        Event.logException "loading problem report failed",
        Event.closeFile, Event.changed])

/-- ErrorController._report_loaded: load the head report and, from inside
its completion callback, recurse on the tail — so each report's whole load
(body and completion) finishes before the next load begins. -/
def reportLoaded (env : LoadEnv) : List ErrorReport → List ErrorReport × List Event
  | [] => ([], [])
  | r :: rest =>
      let p := r.load env
      let q := reportLoaded env rest
      (p.1 :: q.1, p.2 ++ q.2)

/-- Lexicographic strict order on character lists by code point, which is
how Python compares strings. -/
def lexLt : List Char → List Char → Bool
  | [], [] => false
  | [], _ :: _ => true
  | _ :: _, [] => false
  | a :: as, b :: bs =>
      if a.toNat < b.toNat then true
      else if b.toNat < a.toNat then false
      else lexLt as bs

/-- Python string comparison a < b. -/
def strLt (a b : String) : Bool := lexLt a.data b.data

/-- Stable insertion into a descending list, for sorted(-, reverse=True). -/
def insertDesc (x : String) : List String → List String
  | [] => [x]
  | y :: ys => if strLt y x then x :: y :: ys else y :: insertDesc x ys

/-- sorted(filenames, reverse=True): stable descending sort. -/
def sortedDesc : List String → List String
  | [] => []
  | x :: xs => insertDesc x (sortedDesc xs)

/-- The scan loop body: for each directory entry in the given order, skip
it unless its extension is exactly .crash, otherwise construct a report
via from_file and collect it.  A from_file exception propagates: the loop
stops there, keeping the reports already constructed, and the error is
returned.  (Python appends each report to self.reports and to to_load as
it goes; both receive the same list, returned here once.) -/
def scanLoop (dir : String) (fs : MetaFS) :
    List String → List ErrorReport × Option String
  | [] => ([], none)
  | f :: rest =>
      if (splitext f).2 = ".crash" then
        match ErrorReport.fromFile dir fs f with
        | .error e => ([], some e)
        | .ok r =>
            let p := scanLoop dir fs rest
            (r :: p.1, p.2)
      else scanLoop dir fs rest

/-- ErrorController: the crash directory, the repr of the crashdb spec
(opaque to this core), the dry_run option, and the ordered newest-first
report sequence. -/
structure ErrorController where
  crashDirectory : String
  crashdbSpec : String
  dryRun : Bool
  reports : List ErrorReport

/-- ErrorController.__init__ on an app with the given root and dry_run
option: crash directory under var/crash, launchpad crashdb spec with the
staging instance added in dry-run mode, empty report sequence. -/
def mkErrorController (root : String) (dryRun : Bool) : ErrorController :=
  { crashDirectory := joinPath root "var/crash"
    crashdbSpec :=
      if dryRun then "impl=launchpad project=subiquity launchpad_instance=staging"
      else "impl=launchpad project=subiquity"
    dryRun := dryRun
    reports := [] }

/-- Result of scan_crash_dir: the controller afterwards, the reports the
scan appended (to_load, in their final post-load states when the scan
completed), the event trace, and the exception propagated out of the scan,
if any. -/
structure ScanResult where
  ctrl : ErrorController
  toLoad : List ErrorReport
  events : List Event
  raised : Option String

/-- ErrorController.scan_crash_dir: list the directory, iterate the names
in descending order building reports for the .crash entries, then chain
their loads sequentially via _report_loaded.  A from_file exception
propagates out before _report_loaded runs, leaving the reports appended so
far in the sequence and starting no load.  Because Python appends the very
objects that load then mutates, the appended section of the sequence holds
the post-load reports when the scan completed. -/
def scanCrashDir (env : LoadEnv) (c : ErrorController) (fs : MetaFS)
    (filenames : List String) : ScanResult :=
  let p := scanLoop c.crashDirectory fs (sortedDesc filenames)
  match p.2 with
  | some e =>
      ⟨{ c with reports := c.reports ++ p.1 }, p.1, [], some e⟩
  | none =>
      let q := reportLoaded env p.1
      ⟨{ c with reports := c.reports ++ q.1 }, q.1, q.2, none⟩

/-- ErrorController.create_report: construct via ErrorReport.new and
insert at position 0 of the report sequence. -/
def createReport (c : ErrorController) (fs : MetaFS) (now : String)
    (kind : ErrorReportKind) : ErrorReport × ErrorController × MetaFS :=
  let p := ErrorReport.new c.crashDirectory c.crashdbSpec fs now kind
  (p.1, { c with reports := p.1 :: c.reports }, p.2)

/-! ## persistent_details -/

/-- One line of /proc/self/mountinfo, reduced to the fields the code
reads: parts[3] (the root of the mount within its filesystem), parts[4]
(the mount point) and parts[9] (the mount source device).  The kernel
fixes this format, so lines are modelled as well-formed. -/
structure MountInfoLine where
  root : String
  mountPoint : String
  devname : String

/-- The host environment persistent_details consults: path normalization
and absolutization (environment-dependent), the mount table, realpath, and
the udev block-device lookup returning each device's property mapping. -/
structure HostEnv where
  normpath : String → String
  abspath : String → String
  realpath : String → String
  mountinfo : List MountInfoLine
  listDevices : String → List (List (String × String))

/-- ErrorReport.persistent_details: find the mountinfo line whose
normalized mount point equals the normalized absolute crash directory; if
none matches, return the fixed casper-rw answer in dry-run mode and
(None, None) otherwise; if one matches, look up the block device and
return (None, None) when udev yields no device, else the device's
filesystem label (defaulting to the empty string) and the path of the
crash file relative to the mount root. -/
def persistentDetails (env : HostEnv) (dryRun : Bool) (crashDirectory base : String) :
    Option String × Option String :=
  let lookingFor := env.abspath (env.normpath crashDirectory)
  match env.mountinfo.find? (fun line => env.normpath line.mountPoint == lookingFor) with
  | none =>
      if dryRun then
        (some "casper-rw",
         some ("install-logs/2019-11-06.0/crash/" ++ base ++ ".crash"))
      else (none, none)
  | some line =>
      match env.listDevices (env.realpath line.devname) with
      | [] => (none, none)
      | dev :: _ =>
          (some ((alistGet "ID_FS_LABEL_ENC" dev).getD ""),
           some ((line.root.drop 1) ++ "/" ++ base ++ ".crash"))

/-! ## Core operation sequences (for the meta invariants) -/

/-- The operations the core runs on a report after construction: add_info
(either mode), load, and mark_seen (the only post-construction set_meta
the core itself invokes). -/
inductive CoreOp
  | addInfoOp (env : ApportEnv) (wait : Bool)
  | loadOp (env : LoadEnv)
  | markSeenOp

/-- Apply one core operation to a report and the metadata filesystem. -/
def applyOp (op : CoreOp) (s : ErrorReport × MetaFS) : ErrorReport × MetaFS :=
  match op with
  | .addInfoOp env wait => ((addInfo env s.1 wait).report, s.2)
  | .loadOp env => ((s.1.load env).1, s.2)
  | .markSeenOp =>
      let p := markSeen s.1 s.2
      (p.1, p.2.1)

/-! ## Concrete instances used to exercise the model -/

/-- Whether an event is one of the two log lines bracketing a load: the
start of the background parse or the start of its completion callback. -/
def isLoadEvent : Event → Bool
  | .loadStart _ => true
  | .loadDone _ => true
  | _ => false

/-- An environment in which every step of the populate sequence succeeds:
the proc-info call installs the ExecutablePath, ExecutableTimestamp and
ProcMaps fields as apport's add_proc_info does, so the fixup deletions
find their keys. -/
def okEnv : ApportEnv :=
  { attachHook := .ok ()
    addProcInfo := fun pr => .ok (prSet (prSet (prSet pr
        "ExecutablePath" "/snap/subiquity/bin/subiquity")
        "ExecutableTimestamp" "1570000000") "ProcMaps" "00400000 r-xp")
    addOsInfo := fun pr => .ok (prSet pr "DistroRelease" "Ubuntu 19.10")
    addHooksInfo := fun pr => .ok pr
    attachHardware := fun pr => .ok pr
    snapRevision := none
    writeResult := .ok () }

/-- An environment whose caller-supplied attach hook raises. -/
def failEnv : ApportEnv := { okEnv with attachHook := .error "hook failed" }

/-- A freshly created report: create_report on a fresh controller. -/
def rFresh : ErrorReport :=
  (createReport (mkErrorController "/root" false) [] "1570000000.000000000" .UI).1

/-- A load environment in which every parse succeeds. -/
def loadEnvOk : LoadEnv := { parse := fun _ => .ok [("ProblemType", "Bug")] }

/-- A crash directory whose entry 2.crash has corrupt adjacent metadata. -/
def fsCorrupt : MetaFS := [("/r/var/crash/2.meta", .corrupt)]

/-- A host with an empty mount table (the crash directory is then not a
distinct mount point). -/
def hostEnvNoMounts : HostEnv :=
  { normpath := id, abspath := id, realpath := id,
    mountinfo := [], listDevices := fun _ => [] }

/-- The on-disk metadata file agrees with the in-memory meta dict of a
report: reading the report's meta path off the filesystem parses back to
exactly the in-memory mapping. -/
def agrees (s : ErrorReport × MetaFS) : Prop :=
  fsLookup s.2 s.1.metaPath = some (.valid s.1.meta)

/-! ## Helper lemmas -/

theorem kindOfName_name (k : ErrorReportKind) : kindOfName k.name = k := by
  cases k <;> rfl

theorem splitAtLastDot_append_crash (cs : List Char) :
    splitAtLastDot (cs ++ ('.' :: ['c', 'r', 'a', 's', 'h']))
      = some (cs, '.' :: ['c', 'r', 'a', 's', 'h']) := by
  induction cs with
  | nil => rfl
  | cons c rest ih => simp [splitAtLastDot, ih]

/-- A basename that is not all dots keeps its .crash extension under
splitext. -/
theorem splitext_append_crash (s : String)
    (h : s.data.all (fun c => c == '.') = false) :
    splitext (s ++ ".crash") = (s, ".crash") := by
  have hd : (s ++ ".crash").data = s.data ++ ('.' :: ['c', 'r', 'a', 's', 'h']) :=
    String.data_append s ".crash"
  simp only [splitext, hd, splitAtLastDot_append_crash, h]
  rfl

theorem fromFile_base (dir : String) (fs : MetaFS) (fname : String)
    (r : ErrorReport) (h : ErrorReport.fromFile dir fs fname = .ok r) :
    r.base = (splitext fname).1 ∧ r.crashDirectory = dir
      ∧ r.state = .LOADING ∧ r.file = some () := by
  unfold ErrorReport.fromFile at h
  cases hm : fsLookup fs (pathWithExt dir (splitext fname).1 "meta") with
  | none =>
      rw [hm] at h
      cases h
      exact ⟨rfl, rfl, rfl, rfl⟩
  | some c =>
      rw [hm] at h
      cases c with
      | valid m =>
          cases h
          exact ⟨rfl, rfl, rfl, rfl⟩
      | corrupt => cases h

theorem fromFile_ok_of_not_corrupt (dir : String) (fs : MetaFS) (fname : String)
    (h : fsLookup fs (pathWithExt dir (splitext fname).1 "meta") ≠ some .corrupt) :
    ∃ r, ErrorReport.fromFile dir fs fname = .ok r := by
  unfold ErrorReport.fromFile
  cases hm : fsLookup fs (pathWithExt dir (splitext fname).1 "meta") with
  | none => exact ⟨_, rfl⟩
  | some c =>
      cases c with
      | valid m => exact ⟨_, rfl⟩
      | corrupt => exact absurd hm h

theorem load_preserves (env : LoadEnv) (r : ErrorReport) :
    ((r.load env).1).base = r.base ∧ ((r.load env).1).crashDirectory = r.crashDirectory
      ∧ ((r.load env).1).meta = r.meta := by
  cases h : env.parse r.base <;> simp [ErrorReport.load, h]

theorem load_events_filter (env : LoadEnv) (r : ErrorReport) :
    ((r.load env).2).filter isLoadEvent
      = [Event.loadStart r.base, Event.loadDone r.base] := by
  cases h : env.parse r.base <;> simp [ErrorReport.load, h, isLoadEvent]

theorem addInfo_preserves (env : ApportEnv) (r : ErrorReport) (w : Bool) :
    (addInfo env r w).report.base = r.base
      ∧ (addInfo env r w).report.crashDirectory = r.crashDirectory
      ∧ (addInfo env r w).report.meta = r.meta := by
  unfold addInfo
  cases h : (bgAddInfo env r.pr).2 <;> cases w <;> simp [addedInfo, h]

theorem reportLoaded_map (env : LoadEnv) (rs : List ErrorReport) :
    ((reportLoaded env rs).1).map (fun r => r.base) = rs.map (fun r => r.base) := by
  induction rs with
  | nil => rfl
  | cons r rest ih =>
      simp [reportLoaded, ih, (load_preserves env r).1]

theorem reportLoaded_events (env : LoadEnv) (rs : List ErrorReport) :
    ((reportLoaded env rs).2).filter isLoadEvent
      = rs.flatMap (fun r => [Event.loadStart r.base, Event.loadDone r.base]) := by
  induction rs with
  | nil => rfl
  | cons r rest ih =>
      simp [reportLoaded, List.filter_append, ih, load_events_filter env r]

theorem scanLoop_bases (dir : String) (fs : MetaFS) (l : List String)
    (h : (scanLoop dir fs l).2 = none) :
    ((scanLoop dir fs l).1).map (fun r => r.base)
      = (l.filter (fun f => (splitext f).2 == ".crash")).map (fun f => (splitext f).1) := by
  induction l with
  | nil => rfl
  | cons f rest ih =>
      by_cases hf : (splitext f).2 = ".crash"
      · simp only [scanLoop, if_pos hf] at h ⊢
        cases hff : ErrorReport.fromFile dir fs f with
        | error e => rw [hff] at h; exact Option.noConfusion h
        | ok r =>
            rw [hff] at h
            have h' : (scanLoop dir fs rest).2 = none := h
            have hb := (fromFile_base dir fs f r hff).1
            show List.map (fun r => r.base) (r :: (scanLoop dir fs rest).1) = _
            simp only [List.filter_cons, List.map_cons]
            simp [hf, hb, ih h']
      · simp only [scanLoop, if_neg hf] at h ⊢
        have hf' : ((splitext f).2 == ".crash") = false := by
          simpa using hf
        simp [List.filter_cons, hf', ih h]

theorem fromFile_corrupt (dir : String) (fs : MetaFS) (fname : String)
    (h : fsLookup fs (pathWithExt dir (splitext fname).1 "meta") = some .corrupt) :
    ErrorReport.fromFile dir fs fname = .error "JSONDecodeError" := by
  unfold ErrorReport.fromFile
  rw [h]

theorem lexLt_asymm (as : List Char) : ∀ bs, lexLt as bs = true → lexLt bs as = false := by
  induction as with
  | nil =>
      intro bs h
      cases bs with
      | nil => simp [lexLt] at h
      | cons b bs => rfl
  | cons a as ih =>
      intro bs h
      cases bs with
      | nil => simp [lexLt] at h
      | cons b bs =>
          by_cases hab : a.toNat < b.toNat
          · have hba : ¬ b.toNat < a.toNat := by omega
            simp [lexLt, hab, hba]
          · by_cases hba : b.toNat < a.toNat
            · simp [lexLt, hab, hba] at h
            · simp only [lexLt, if_neg hab, if_neg hba] at h
              simp only [lexLt, if_neg hab, if_neg hba]
              exact ih bs h

theorem strLt_asymm (a b : String) (h : strLt a b = true) : strLt b a = false :=
  lexLt_asymm a.data b.data h

theorem sortedDesc_pair_lt (x y : String) (h : strLt x y = true) :
    sortedDesc [x, y] = [y, x] := by
  simp [sortedDesc, insertDesc, strLt_asymm x y h]

theorem sortedDesc_pair_gt (x y : String) (h : strLt x y = true) :
    sortedDesc [y, x] = [y, x] := by
  simp [sortedDesc, insertDesc, h]

theorem sortedDesc_triple (x y z : String) (hxy : strLt x y = true)
    (hyz : strLt y z = true) (hxz : strLt x z = true) :
    sortedDesc [x, y, z] = [z, y, x] := by
  simp [sortedDesc, insertDesc, strLt_asymm x y hxy, strLt_asymm y z hyz,
    strLt_asymm x z hxz]

theorem scanCrashDir_of_loop_ok (env : LoadEnv) (c : ErrorController) (fs : MetaFS)
    (filenames : List String) (rs : List ErrorReport)
    (h : scanLoop c.crashDirectory fs (sortedDesc filenames) = (rs, none)) :
    scanCrashDir env c fs filenames =
      ⟨{ c with reports := c.reports ++ (reportLoaded env rs).1 },
        (reportLoaded env rs).1, (reportLoaded env rs).2, none⟩ := by
  unfold scanCrashDir
  rw [h]

theorem scanCrashDir_of_loop_err (env : LoadEnv) (c : ErrorController) (fs : MetaFS)
    (filenames : List String) (rs : List ErrorReport) (e : String)
    (h : scanLoop c.crashDirectory fs (sortedDesc filenames) = (rs, some e)) :
    scanCrashDir env c fs filenames =
      ⟨{ c with reports := c.reports ++ rs }, rs, [], some e⟩ := by
  unfold scanCrashDir
  rw [h]

theorem setMeta_agrees (r : ErrorReport) (fs : MetaFS) (k : String) (v : JVal) :
    agrees (setMeta r fs k v) := by
  unfold agrees setMeta fsWrite fsLookup
  exact alistGet_alistSet_self fs _ _

theorem applyOp_agrees (op : CoreOp) (s : ErrorReport × MetaFS) (h : agrees s) :
    agrees (applyOp op s) := by
  cases op with
  | addInfoOp env w =>
      have hp := addInfo_preserves env s.1 w
      unfold agrees ErrorReport.metaPath at h
      unfold agrees applyOp ErrorReport.metaPath
      rw [hp.1, hp.2.1, hp.2.2]
      exact h
  | loadOp env =>
      have hp := load_preserves env s.1
      unfold agrees ErrorReport.metaPath at h
      unfold agrees applyOp ErrorReport.metaPath
      rw [hp.1, hp.2.1, hp.2.2]
      exact h
  | markSeenOp =>
      exact setMeta_agrees s.1 s.2 "seen" (.bool true)

theorem foldl_agrees (ops : List CoreOp) (s : ErrorReport × MetaFS) (h : agrees s) :
    agrees (ops.foldl (fun s op => applyOp op s) s) := by
  induction ops generalizing s with
  | nil => exact h
  | cons op rest ih =>
      simp only [List.foldl_cons]
      exact ih _ (applyOp_agrees op s h)

/-! ## Claim theorems -/

/-- C1: for every valid kind, create_report(kind) returns a report whose
state is INCOMPLETE, whose kind accessor resolves to that same kind, and
which sits at position 0 of the manager's report sequence. -/
theorem create_report_initial (c : ErrorController) (fs : MetaFS) (now : String)
    (kind : ErrorReportKind) :
    (createReport c fs now kind).1.state = .INCOMPLETE
    ∧ (createReport c fs now kind).1.kind = .ok kind
    ∧ (createReport c fs now kind).2.1.reports.head? = some (createReport c fs now kind).1 := by
  refine ⟨rfl, ?_, rfl⟩
  simp [createReport, ErrorReport.new, setMeta, ErrorReport.kind, alistSet, alistGet,
    kindOfName_name]

/-- C6: set_meta(k, v) followed immediately by re-reading the metadata
file from disk yields a mapping equal to the report's in-memory meta,
which contains the binding of k to v; and the agreement of the on-disk
copy with the in-memory copy, once established by the set_meta write, is
preserved by every subsequent core operation (each of which either leaves
meta and the file alone or rewrites the file wholesale inside its own
set_meta), so the two copies never diverge outside one set_meta call. -/
theorem set_meta_roundtrip (r : ErrorReport) (fs : MetaFS) (k : String) (v : JVal)
    (ops : List CoreOp) :
    (agrees (setMeta r fs k v) ∧ alistGet k (setMeta r fs k v).1.meta = some v)
    ∧ agrees (ops.foldl (fun s op => applyOp op s) (setMeta r fs k v)) := by
  refine ⟨⟨setMeta_agrees r fs k v, ?_⟩, foldl_agrees ops _ (setMeta_agrees r fs k v)⟩
  show alistGet k (alistSet k v r.meta) = some v
  exact alistGet_alistSet_self r.meta k v

/-- C7: for every artifact path whose adjacent metadata file does not
exist, from_file succeeds, the constructed report's meta mapping is
empty, its state is LOADING at construction, and its kind accessor
resolves to UNKNOWN without failing. -/
theorem from_file_missing_meta (dir : String) (fs : MetaFS) (fname : String)
    (h : fsLookup fs (pathWithExt dir (splitext fname).1 "meta") = none) :
    ∃ r, ErrorReport.fromFile dir fs fname = .ok r
      ∧ r.meta = [] ∧ r.state = .LOADING ∧ r.kind = .ok .UNKNOWN := by
  unfold ErrorReport.fromFile
  rw [h]
  exact ⟨_, rfl, rfl, rfl, rfl⟩

/-- Witness for C7, at a concrete artifact name and an empty filesystem. -/
theorem from_file_missing_meta_witness :
    fsLookup [] (pathWithExt "/r/var/crash" (splitext "1570.ui.crash").1 "meta") = none
    ∧ ∃ r, ErrorReport.fromFile "/r/var/crash" [] "1570.ui.crash" = .ok r
        ∧ r.meta = [] ∧ r.state = .LOADING ∧ r.kind = .ok .UNKNOWN :=
  ⟨rfl, from_file_missing_meta "/r/var/crash" [] "1570.ui.crash" rfl⟩

/-- C9: once meta contains a kind binding, no core operation that runs on
the report afterwards (add_info in either mode, load, mark_seen — the
only set_meta the core itself invokes after construction) ever changes
that binding: after any sequence of core operations the lookup of "kind"
still yields the original value. -/
theorem meta_kind_never_overwritten (ops : List CoreOp) (r : ErrorReport)
    (fs : MetaFS) (v : JVal) (h : alistGet "kind" r.meta = some v) :
    alistGet "kind" ((ops.foldl (fun s op => applyOp op s) (r, fs)).1).meta = some v := by
  induction ops generalizing r fs with
  | nil => exact h
  | cons op rest ih =>
      simp only [List.foldl_cons]
      have hop : alistGet "kind" ((applyOp op (r, fs)).1).meta = some v := by
        cases op with
        | addInfoOp env w =>
            show alistGet "kind" (addInfo env r w).report.meta = some v
            rw [(addInfo_preserves env r w).2.2]
            exact h
        | loadOp env =>
            show alistGet "kind" (r.load env).1.meta = some v
            rw [(load_preserves env r).2.2]
            exact h
        | markSeenOp =>
            show alistGet "kind" (alistSet "seen" (.bool true) r.meta) = some v
            rw [alistGet_alistSet_ne r.meta "kind" "seen" _ (by decide)]
            exact h
      exact ih _ _ hop

/-- Witness for C9: a freshly created UI report keeps its kind binding
across mark_seen, a background add_info and a load. -/
theorem meta_kind_never_overwritten_witness :
    alistGet "kind" rFresh.meta = some (.str "UI")
    ∧ alistGet "kind"
        ((([CoreOp.markSeenOp, CoreOp.addInfoOp okEnv false,
            CoreOp.loadOp loadEnvOk].foldl (fun s op => applyOp op s)
            (rFresh, []))).1).meta = some (.str "UI") :=
  ⟨rfl, meta_kind_never_overwritten _ rFresh [] _ rfl⟩

/-- C2 (amended): for every freshly created report, after add_info in
background mode (wait=False) completes with no failure in the populate
sequence, the report's state is DONE, the file handle is closed and set
to null, exactly one changed notification has been emitted, and nothing
is raised to the caller.  (The claim's wait=True half is false: there the
completion callback never runs, see the counterexample.) -/
theorem add_info_background_success (env : ApportEnv) (r : ErrorReport)
    (h : (bgAddInfo env r.pr).2 = .ok ()) :
    (addInfo env r false).report.state = .DONE
    ∧ (addInfo env r false).report.file = none
    ∧ Event.closeFile ∈ (addInfo env r false).events
    ∧ (addInfo env r false).events.count Event.changed = 1
    ∧ (addInfo env r false).raised = none := by
  unfold addInfo
  rw [h]
  simp [addedInfo, List.count_cons]

/-- Witness for C2 at a concrete fresh report and an all-success
environment. -/
theorem add_info_background_success_witness :
    (bgAddInfo okEnv rFresh.pr).2 = .ok ()
    ∧ ((addInfo okEnv rFresh false).report.state = .DONE
       ∧ (addInfo okEnv rFresh false).report.file = none
       ∧ Event.closeFile ∈ (addInfo okEnv rFresh false).events
       ∧ (addInfo okEnv rFresh false).events.count Event.changed = 1
       ∧ (addInfo okEnv rFresh false).raised = none) :=
  ⟨rfl, add_info_background_success okEnv rFresh rfl⟩

/-- Counterexample to C2 as stated: in wait=True mode, even though every
step of the populate sequence succeeds, add_info returns with the report
still INCOMPLETE (not DONE), the file handle still open, and no changed
notification emitted — the completion callback added_info is only ever
handed to the background runner, which the wait=True branch bypasses. -/
theorem add_info_wait_mode_cx :
    (bgAddInfo okEnv rFresh.pr).2 = .ok ()
    ∧ (addInfo okEnv rFresh true).report.state = .INCOMPLETE
    ∧ ¬ (addInfo okEnv rFresh true).report.state = .DONE
    ∧ (addInfo okEnv rFresh true).report.file = some ()
    ∧ (addInfo okEnv rFresh true).events.count Event.changed = 0 :=
  ⟨rfl, rfl, by decide, rfl, rfl⟩

/-- C3 (amended): for every report on which add_info runs in background
mode (wait=False) and some step of the populate sequence fails, the
report's state becomes ERROR_GENERATING, the failure is logged and not
re-raised to the caller, the file handle is closed and nulled, and
exactly one changed notification fires.  (The claim's wait=True half is
false: there the exception propagates to the caller and no state
transition happens, see the counterexample.) -/
theorem add_info_background_failure (env : ApportEnv) (r : ErrorReport) (e : String)
    (h : (bgAddInfo env r.pr).2 = .error e) :
    (addInfo env r false).report.state = .ERROR_GENERATING
    ∧ Event.logException "adding info to problem report failed"
        ∈ (addInfo env r false).events
    ∧ (addInfo env r false).raised = none
    ∧ (addInfo env r false).report.file = none
    ∧ Event.closeFile ∈ (addInfo env r false).events
    ∧ (addInfo env r false).events.count Event.changed = 1 := by
  unfold addInfo
  rw [h]
  simp [addedInfo, List.count_cons]

/-- Witness for C3 at a concrete fresh report and an environment whose
populate hook fails. -/
theorem add_info_background_failure_witness :
    (bgAddInfo failEnv rFresh.pr).2 = .error "hook failed"
    ∧ ((addInfo failEnv rFresh false).report.state = .ERROR_GENERATING
       ∧ Event.logException "adding info to problem report failed"
           ∈ (addInfo failEnv rFresh false).events
       ∧ (addInfo failEnv rFresh false).raised = none
       ∧ (addInfo failEnv rFresh false).report.file = none
       ∧ Event.closeFile ∈ (addInfo failEnv rFresh false).events
       ∧ (addInfo failEnv rFresh false).events.count Event.changed = 1) :=
  ⟨rfl, add_info_background_failure failEnv rFresh "hook failed" rfl⟩

/-- Counterexample to C3 as stated: in wait=True mode a failing populate
hook makes add_info re-raise the failure to its caller; the state is left
INCOMPLETE rather than ERROR_GENERATING, the handle stays open, and no
changed notification fires. -/
theorem add_info_wait_reraise_cx :
    (bgAddInfo failEnv rFresh.pr).2 = .error "hook failed"
    ∧ (addInfo failEnv rFresh true).raised = some "hook failed"
    ∧ ¬ (addInfo failEnv rFresh true).report.state = .ERROR_GENERATING
    ∧ (addInfo failEnv rFresh true).report.file = some ()
    ∧ (addInfo failEnv rFresh true).events.count Event.changed = 0 :=
  ⟨rfl, rfl, by decide, rfl, rfl⟩

/-- C10: a scan that completes constructs exactly one report per
directory entry whose splitext extension is exactly .crash — the report
bases are the stems of the .crash entries in descending filename order —
and every other entry (including the adjacent .meta files) yields no
report: the manager's sequence afterwards is exactly its old contents
followed by those reports. -/
theorem scan_only_crash_entries (env : LoadEnv) (c : ErrorController) (fs : MetaFS)
    (filenames : List String)
    (h : (scanCrashDir env c fs filenames).raised = none) :
    ((scanCrashDir env c fs filenames).toLoad).map (fun r => r.base)
      = ((sortedDesc filenames).filter
          (fun f => (splitext f).2 == ".crash")).map (fun f => (splitext f).1)
    ∧ (scanCrashDir env c fs filenames).ctrl.reports
      = c.reports ++ (scanCrashDir env c fs filenames).toLoad := by
  cases hp : scanLoop c.crashDirectory fs (sortedDesc filenames) with
  | mk rs err =>
      cases err with
      | some e =>
          rw [scanCrashDir_of_loop_err env c fs filenames rs e hp] at h
          exact Option.noConfusion h
      | none =>
          rw [scanCrashDir_of_loop_ok env c fs filenames rs hp]
          constructor
          · rw [reportLoaded_map env rs]
            have := scanLoop_bases c.crashDirectory fs (sortedDesc filenames)
              (by rw [hp])
            rw [hp] at this
            exact this
          · rfl

/-- Witness for C10: a directory holding one artifact, its metadata file
and a stray text file yields exactly one report, for the artifact. -/
theorem scan_only_crash_entries_witness :
    (scanCrashDir loadEnvOk (mkErrorController "/r" false) []
        ["1570.ui.crash", "1570.ui.meta", "notes.txt"]).raised = none
    ∧ (((scanCrashDir loadEnvOk (mkErrorController "/r" false) []
          ["1570.ui.crash", "1570.ui.meta", "notes.txt"]).toLoad).map (fun r => r.base)
        = ((sortedDesc ["1570.ui.crash", "1570.ui.meta", "notes.txt"]).filter
            (fun f => (splitext f).2 == ".crash")).map (fun f => (splitext f).1)
       ∧ (scanCrashDir loadEnvOk (mkErrorController "/r" false) []
            ["1570.ui.crash", "1570.ui.meta", "notes.txt"]).ctrl.reports
          = (mkErrorController "/r" false).reports
            ++ (scanCrashDir loadEnvOk (mkErrorController "/r" false) []
                 ["1570.ui.crash", "1570.ui.meta", "notes.txt"]).toLoad) :=
  ⟨by decide, scan_only_crash_entries loadEnvOk (mkErrorController "/r" false) []
      ["1570.ui.crash", "1570.ui.meta", "notes.txt"] (by decide)⟩

/-- C5: scanning a directory holding artifacts A (older) and B (newer by
timestamp-prefixed filename, i.e. A's filename sorts before B's in Python
string order), listed in either order, yields the report sequence [B, A]
(filenames sorted descending, appended in that order), and the load chain
is strictly sequential: the trace restricted to load start/completion
events is exactly start B, done B, start A, done A — B's completion
callback fires strictly before A's load begins, and at most one load is
ever in flight. -/
theorem scan_two_artifacts_sequential (env : LoadEnv) (root : String) (d : Bool)
    (fs : MetaFS) (bA bB : String) (filenames : List String)
    (hdA : bA.data.all (fun c => c == '.') = false)
    (hdB : bB.data.all (fun c => c == '.') = false)
    (hlt : strLt (bA ++ ".crash") (bB ++ ".crash") = true)
    (hfiles : filenames = [bA ++ ".crash", bB ++ ".crash"]
            ∨ filenames = [bB ++ ".crash", bA ++ ".crash"])
    (hmA : fsLookup fs (pathWithExt (joinPath root "var/crash") bA "meta") ≠ some .corrupt)
    (hmB : fsLookup fs (pathWithExt (joinPath root "var/crash") bB "meta") ≠ some .corrupt) :
    (scanCrashDir env (mkErrorController root d) fs filenames).raised = none
    ∧ ((scanCrashDir env (mkErrorController root d) fs filenames).ctrl.reports).map
        (fun r => r.base) = [bB, bA]
    ∧ ((scanCrashDir env (mkErrorController root d) fs filenames).events).filter isLoadEvent
      = [Event.loadStart bB, Event.loadDone bB, Event.loadStart bA, Event.loadDone bA] := by
  have hsA : splitext (bA ++ ".crash") = (bA, ".crash") := splitext_append_crash bA hdA
  have hsB : splitext (bB ++ ".crash") = (bB, ".crash") := splitext_append_crash bB hdB
  have hsorted : sortedDesc filenames = [bB ++ ".crash", bA ++ ".crash"] := by
    rcases hfiles with hf | hf <;> rw [hf]
    · exact sortedDesc_pair_lt _ _ hlt
    · exact sortedDesc_pair_gt _ _ hlt
  obtain ⟨rB, hrB⟩ := fromFile_ok_of_not_corrupt (joinPath root "var/crash") fs
    (bB ++ ".crash") (by rw [hsB]; exact hmB)
  obtain ⟨rA, hrA⟩ := fromFile_ok_of_not_corrupt (joinPath root "var/crash") fs
    (bA ++ ".crash") (by rw [hsA]; exact hmA)
  have hbB : rB.base = bB := by
    have := (fromFile_base _ _ _ _ hrB).1
    rw [hsB] at this
    exact this
  have hbA : rA.base = bA := by
    have := (fromFile_base _ _ _ _ hrA).1
    rw [hsA] at this
    exact this
  have hloop : scanLoop (joinPath root "var/crash") fs
      [bB ++ ".crash", bA ++ ".crash"] = ([rB, rA], none) := by
    simp [scanLoop, hsA, hsB, hrA, hrB]
  rw [scanCrashDir_of_loop_ok env (mkErrorController root d) fs filenames [rB, rA]
    (by rw [show (mkErrorController root d).crashDirectory = joinPath root "var/crash" from rfl,
          hsorted]; exact hloop)]
  refine ⟨rfl, ?_, ?_⟩
  · show ((mkErrorController root d).reports ++ (reportLoaded env [rB, rA]).1).map
      (fun r => r.base) = [bB, bA]
    rw [show (mkErrorController root d).reports = [] from rfl, List.nil_append,
      reportLoaded_map env [rB, rA]]
    simp [hbA, hbB]
  · rw [reportLoaded_events env [rB, rA]]
    simp [hbA, hbB]

/-- Witness for C5 at concrete bases, listed oldest-first on disk. -/
theorem scan_two_artifacts_sequential_witness :
    ("1570.ui".data.all (fun c => c == '.') = false
     ∧ "1571.ui".data.all (fun c => c == '.') = false
     ∧ strLt ("1570.ui" ++ ".crash") ("1571.ui" ++ ".crash") = true
     ∧ fsLookup [] (pathWithExt (joinPath "/r" "var/crash") "1570.ui" "meta")
         ≠ some .corrupt)
    ∧ ((scanCrashDir loadEnvOk (mkErrorController "/r" false) []
          ["1570.ui" ++ ".crash", "1571.ui" ++ ".crash"]).raised = none
       ∧ ((scanCrashDir loadEnvOk (mkErrorController "/r" false) []
            ["1570.ui" ++ ".crash", "1571.ui" ++ ".crash"]).ctrl.reports).map
            (fun r => r.base) = ["1571.ui", "1570.ui"]
       ∧ ((scanCrashDir loadEnvOk (mkErrorController "/r" false) []
            ["1570.ui" ++ ".crash", "1571.ui" ++ ".crash"]).events).filter isLoadEvent
          = [Event.loadStart "1571.ui", Event.loadDone "1571.ui",
             Event.loadStart "1570.ui", Event.loadDone "1570.ui"]) :=
  ⟨⟨by decide, by decide, by decide, by decide⟩,
    scan_two_artifacts_sequential loadEnvOk "/r" false [] "1570.ui" "1571.ui"
      ["1570.ui" ++ ".crash", "1571.ui" ++ ".crash"] (by decide) (by decide)
      (by decide) (Or.inl rfl) (by decide) (by decide)⟩

/-- C4 (amended): a corrupt metadata file does not merely skip its own
entry — from_file raises and scan_crash_dir has no handler, so the scan
aborts at that entry: the error propagates to the caller, the reports
constructed for entries earlier in descending filename order stay
appended to the manager's sequence, every entry after the corrupt one
(valid or not) yields no report, and no load is started. -/
theorem scan_corrupt_meta_aborts (env : LoadEnv) (c : ErrorController) (fs : MetaFS)
    (bGood bBad bRest : String)
    (hdG : bGood.data.all (fun c => c == '.') = false)
    (hdB : bBad.data.all (fun c => c == '.') = false)
    (h1 : strLt (bBad ++ ".crash") (bGood ++ ".crash") = true)
    (h2 : strLt (bRest ++ ".crash") (bBad ++ ".crash") = true)
    (h3 : strLt (bRest ++ ".crash") (bGood ++ ".crash") = true)
    (hmG : fsLookup fs (pathWithExt c.crashDirectory bGood "meta") ≠ some .corrupt)
    (hmB : fsLookup fs (pathWithExt c.crashDirectory bBad "meta") = some .corrupt) :
    (scanCrashDir env c fs
        [bRest ++ ".crash", bBad ++ ".crash", bGood ++ ".crash"]).raised
      = some "JSONDecodeError"
    ∧ ((scanCrashDir env c fs
          [bRest ++ ".crash", bBad ++ ".crash", bGood ++ ".crash"]).toLoad).map
        (fun r => r.base) = [bGood]
    ∧ (scanCrashDir env c fs
          [bRest ++ ".crash", bBad ++ ".crash", bGood ++ ".crash"]).ctrl.reports
      = c.reports ++ (scanCrashDir env c fs
          [bRest ++ ".crash", bBad ++ ".crash", bGood ++ ".crash"]).toLoad
    ∧ (scanCrashDir env c fs
          [bRest ++ ".crash", bBad ++ ".crash", bGood ++ ".crash"]).events = [] := by
  have hsG : splitext (bGood ++ ".crash") = (bGood, ".crash") :=
    splitext_append_crash bGood hdG
  have hsBad : splitext (bBad ++ ".crash") = (bBad, ".crash") :=
    splitext_append_crash bBad hdB
  have hsorted : sortedDesc [bRest ++ ".crash", bBad ++ ".crash", bGood ++ ".crash"]
      = [bGood ++ ".crash", bBad ++ ".crash", bRest ++ ".crash"] :=
    sortedDesc_triple _ _ _ h2 h1 h3
  obtain ⟨rG, hrG⟩ := fromFile_ok_of_not_corrupt c.crashDirectory fs
    (bGood ++ ".crash") (by rw [hsG]; exact hmG)
  have hbG : rG.base = bGood := by
    have := (fromFile_base _ _ _ _ hrG).1
    rw [hsG] at this
    exact this
  have hbad : ErrorReport.fromFile c.crashDirectory fs (bBad ++ ".crash")
      = .error "JSONDecodeError" :=
    fromFile_corrupt _ _ _ (by rw [hsBad]; exact hmB)
  have hloop : scanLoop c.crashDirectory fs
      [bGood ++ ".crash", bBad ++ ".crash", bRest ++ ".crash"]
      = ([rG], some "JSONDecodeError") := by
    simp [scanLoop, hsG, hsBad, hrG, hbad]
  rw [scanCrashDir_of_loop_err env c fs _ [rG] "JSONDecodeError"
    (by rw [hsorted]; exact hloop)]
  exact ⟨rfl, by simp [hbG], rfl, rfl⟩

/-- Witness for the amended C4 at concrete bases 3 (valid), 2 (corrupt
metadata) and 1 (valid, but never reached). -/
theorem scan_corrupt_meta_aborts_witness :
    ("3".data.all (fun c => c == '.') = false
     ∧ "2".data.all (fun c => c == '.') = false
     ∧ strLt ("2" ++ ".crash") ("3" ++ ".crash") = true
     ∧ strLt ("1" ++ ".crash") ("2" ++ ".crash") = true
     ∧ fsLookup fsCorrupt
         (pathWithExt (mkErrorController "/r" false).crashDirectory "2" "meta")
       = some .corrupt)
    ∧ ((scanCrashDir loadEnvOk (mkErrorController "/r" false) fsCorrupt
          ["1" ++ ".crash", "2" ++ ".crash", "3" ++ ".crash"]).raised
        = some "JSONDecodeError"
       ∧ ((scanCrashDir loadEnvOk (mkErrorController "/r" false) fsCorrupt
            ["1" ++ ".crash", "2" ++ ".crash", "3" ++ ".crash"]).toLoad).map
          (fun r => r.base) = ["3"]
       ∧ (scanCrashDir loadEnvOk (mkErrorController "/r" false) fsCorrupt
            ["1" ++ ".crash", "2" ++ ".crash", "3" ++ ".crash"]).ctrl.reports
          = (mkErrorController "/r" false).reports
            ++ (scanCrashDir loadEnvOk (mkErrorController "/r" false) fsCorrupt
                 ["1" ++ ".crash", "2" ++ ".crash", "3" ++ ".crash"]).toLoad
       ∧ (scanCrashDir loadEnvOk (mkErrorController "/r" false) fsCorrupt
            ["1" ++ ".crash", "2" ++ ".crash", "3" ++ ".crash"]).events = []) :=
  ⟨⟨by decide, by decide, by decide, by decide, by decide⟩,
    scan_corrupt_meta_aborts loadEnvOk (mkErrorController "/r" false) fsCorrupt
      "3" "2" "1" (by decide) (by decide) (by decide) (by decide) (by decide)
      (by decide) (by decide)⟩

/-- Counterexample to C4 as stated: on a directory with three artifacts
1.crash, 2.crash, 3.crash where only 2.crash has corrupt metadata, the
scan raises instead of skipping that one entry: it stops after
constructing the report for 3.crash, the remaining valid entry 1.crash
yields no report in the manager's sequence, and no load starts. -/
theorem scan_corrupt_meta_cx :
    (scanCrashDir loadEnvOk (mkErrorController "/r" false) fsCorrupt
        ["1.crash", "2.crash", "3.crash"]).raised = some "JSONDecodeError"
    ∧ ((scanCrashDir loadEnvOk (mkErrorController "/r" false) fsCorrupt
          ["1.crash", "2.crash", "3.crash"]).ctrl.reports).map (fun r => r.base)
      = ["3"]
    ∧ (scanCrashDir loadEnvOk (mkErrorController "/r" false) fsCorrupt
        ["1.crash", "2.crash", "3.crash"]).events = [] := by
  refine ⟨by decide, by decide, by decide⟩

/-- C8 (amended): outside dry-run mode, whenever the crash directory is
not a distinct mount point (no mountinfo line matches it) or the device
lookup fails (udev returns no device for the matched line), the
persistent_details lookup degrades to (None, None); the embedding is a
total function, so no exception escapes in the modelled cases.  (In
dry-run mode a missing mount instead yields the fixed casper-rw answer,
see the counterexample.) -/
theorem persistent_details_not_mount (env : HostEnv) (dir base : String)
    (h : env.mountinfo.find?
          (fun line => env.normpath line.mountPoint == env.abspath (env.normpath dir))
        = none
      ∨ ∃ line, env.mountinfo.find?
            (fun line => env.normpath line.mountPoint == env.abspath (env.normpath dir))
          = some line
          ∧ env.listDevices (env.realpath line.devname) = []) :
    persistentDetails env false dir base = (none, none) := by
  simp only [persistentDetails]
  rcases h with h | ⟨line, hfind, hdev⟩
  · simp [h]
  · simp [hfind, hdev]

/-- Witness for C8 on a host with an empty mount table. -/
theorem persistent_details_not_mount_witness :
    hostEnvNoMounts.mountinfo.find?
        (fun line => hostEnvNoMounts.normpath line.mountPoint
          == hostEnvNoMounts.abspath (hostEnvNoMounts.normpath "/r/var/crash")) = none
    ∧ persistentDetails hostEnvNoMounts false "/r/var/crash" "1570.ui" = (none, none) :=
  ⟨rfl, persistent_details_not_mount hostEnvNoMounts "/r/var/crash" "1570.ui" (Or.inl rfl)⟩

/-- Counterexample to C8 as stated: with the store directory not a
distinct mount point (empty mount table) but the manager in dry-run mode,
persistent_details returns the fixed ("casper-rw", install-logs path)
answer, not (None, None). -/
theorem persistent_details_dry_run_cx :
    hostEnvNoMounts.mountinfo = []
    ∧ persistentDetails hostEnvNoMounts true "/r/var/crash" "1570.ui"
        = (some "casper-rw", some "install-logs/2019-11-06.0/crash/1570.ui.crash")
    ∧ persistentDetails hostEnvNoMounts true "/r/var/crash" "1570.ui" ≠ (none, none) :=
  ⟨rfl, rfl, by decide⟩

end Subiquity
